import Mathlib

/-!
Verification development for the `codetool.py` command-line helper.

The program is a snippet catalog plus a command dispatcher.  We embed it
shallowly: every Python function becomes a Lean function on `String`s,
stdin becomes an explicit argument (a `String`, or a list of input lines
for the interactive loop), printed output becomes a returned list of
strings, and the process exit status becomes a returned `Nat`.

The two optional third-party libraries (`autopep8`, `pyflakes`) are
modelled as `Option (String → String)` parameters: `none` is the
`ImportError` branch of the source, `some f` is the installed library
whose observable behaviour is the function `f`.

Python's `textwrap.indent` splits its input with `str.splitlines(True)`
and skips lines whose `str.strip()` is empty; `splitLines`, `pyIsSpace`
and `stripChars` below model the full CPython character sets: every
`str.splitlines` line boundary (`"\n"`, `"\r"`, `"\r\n"`, `"\v"`,
`"\f"`, `"\x1c"`, `"\x1d"`, `"\x1e"`, `"\x85"`, `"U+2028"`, `"U+2029"`)
and every `str.isspace` character.
-/

/-- Model of Python `str.isspace()` on a single character: the exact
set of code points CPython treats as whitespace (ASCII whitespace, the
file/group/record/unit separators, `"\x85"`, and the Unicode space
separators together with the line and paragraph separators). -/
def pyIsSpace (c : Char) : Bool :=
  c = '\t' || c = '\n' || c = '\x0b' || c = '\x0c' || c = '\r' ||
  c = '\x1c' || c = '\x1d' || c = '\x1e' || c = '\x1f' || c = ' ' ||
  c = '\x85' || c = '\xa0' || c = '\u1680' ||
  c = '\u2000' || c = '\u2001' || c = '\u2002' || c = '\u2003' ||
  c = '\u2004' || c = '\u2005' || c = '\u2006' || c = '\u2007' ||
  c = '\u2008' || c = '\u2009' || c = '\u200a' ||
  c = '\u2028' || c = '\u2029' || c = '\u202f' || c = '\u205f' || c = '\u3000'

/-- The single characters that terminate a line for Python
`str.splitlines`, apart from `'\r'` (which is handled separately
because of the two-character `"\r\n"` boundary). -/
def isLineBoundary (c : Char) : Bool :=
  c = '\n' || c = '\x0b' || c = '\x0c' ||
  c = '\x1c' || c = '\x1d' || c = '\x1e' ||
  c = '\x85' || c = '\u2028' || c = '\u2029'

/-- One right-to-left step of `splitLines`: prepend character `c` to the
lines of the text to its right.  A `'\r'` merges with an immediately
following lone-`'\n'` line (the `"\r\n"` boundary) and otherwise opens
a fresh line; every other line-boundary character opens a fresh line of
its own; any remaining character joins the first line. -/
def splitLinesStep (c : Char) (ls : List (List Char)) : List (List Char) :=
  if c = '\r' then
    if ls.head? = some ['\n'] then ['\r', '\n'] :: ls.tail
    else ['\r'] :: ls
  else if isLineBoundary c then [c] :: ls
  else
    match ls with
    | [] => [[c]]
    | l :: rest => (c :: l) :: rest

/-- Model of Python `str.splitlines(keepends=True)` on character lists,
covering the full CPython line-boundary set. -/
def splitLines (cs : List Char) : List (List Char) := cs.foldr splitLinesStep []

/-- Model of Python `str.strip()` on character lists: drop Python
whitespace from both ends. -/
def stripChars (l : List Char) : List Char :=
  ((l.dropWhile pyIsSpace).reverse.dropWhile pyIsSpace).reverse

/-- Model of Python `str.strip()` on strings. -/
def pyStrip (s : String) : String := String.mk (stripChars s.data)

/-- Model of Python `str.startswith(pre)`. -/
def pyStartsWith (s pre : String) : Bool := pre.data.isPrefixOf s.data

/-- Helper for `pySplit`: scan the characters, accumulating the current
word in reverse; whitespace ends a word, leading whitespace yields none. -/
def wordsAux : List Char → List Char → List (List Char)
  | [], acc => if acc = [] then [] else [acc.reverse]
  | c :: cs, acc =>
    if pyIsSpace c then
      if acc = [] then wordsAux cs [] else acc.reverse :: wordsAux cs []
    else wordsAux cs (c :: acc)

/-- Model of Python `str.split()` with no separator: split on runs of
whitespace, dropping empty pieces. -/
def pySplit (s : String) : List String := (wordsAux s.data []).map String.mk

/-- Model of Python `textwrap.indent(text, pre)` with the default
predicate `lambda line: line.strip()`: every line whose `strip` is
non-empty gets `pre` prepended; other lines are kept as they are. -/
def textwrap_indent (pre : String) (text : String) : String :=
  String.join ((splitLines text.data).map
    (fun l => if stripChars l = [] then String.mk l else pre ++ String.mk l))

/-- `list_languages` from `codetool.py`. -/
def list_languages : List String :=
  ["python", "java", "perl", "lua", "kotlin"]

/-- The per-language snippet table for Python (`snippets['python']` in the
source); `none` models a missing dictionary key. -/
def pythonSnippets (topic : String) : Option String :=
  if topic = "hello" then some "print(\"Hello, world!\")"
  else if topic = "function" then
    some "def my_function(arg1, arg2):\n    \"\"\"Example function.\"\"\"\n    return arg1 + arg2"
  else if topic = "class" then
    some "class MyClass:\n    def __init__(self, value):\n        self.value = value\n    def __str__(self):\n        return f\"MyClass: \x7bself.value\x7d\""
  else none

/-- The per-language snippet table for Java. -/
def javaSnippets (topic : String) : Option String :=
  if topic = "hello" then
    some "public class HelloWorld \x7b\n    public static void main(String[] args) \x7b\n        System.out.println(\"Hello, world!\");\n    \x7d\n\x7d"
  else if topic = "function" then
    some "public int add(int a, int b) \x7b\n    return a + b;\n\x7d"
  else if topic = "class" then
    some "public class MyClass \x7b\n    private int value;\n    public MyClass(int value) \x7b\n        this.value = value;\n    \x7d\n    public String toString() \x7b\n        return \"MyClass: \" + value;\n    \x7d\n\x7d"
  else none

/-- The per-language snippet table for Perl. -/
def perlSnippets (topic : String) : Option String :=
  if topic = "hello" then some "print \"Hello, world!\\n\";"
  else if topic = "function" then
    some "sub add \x7b\n    my ($a, $b) = @_;\n    return $a + $b;\n\x7d"
  else if topic = "class" then
    some "package MyClass;\nsub new \x7b\n    my ($class, $value) = @_;\n    bless \x7b value => $value \x7d, $class;\n\x7d\nsub value \x7b\n    my $self = shift;\n    return $self->\x7bvalue\x7d;\n\x7d\n1;"
  else none

/-- The per-language snippet table for Lua. -/
def luaSnippets (topic : String) : Option String :=
  if topic = "hello" then some "print(\"Hello, world!\")"
  else if topic = "function" then
    some "function add(a, b)\n    return a + b\nend"
  else if topic = "class" then
    some "MyClass = \x7b\x7d\nMyClass.__index = MyClass\nfunction MyClass:new(value)\n    local inst = setmetatable(\x7b\x7d, self)\n    inst.value = value\n    return inst\nend\nfunction MyClass:toString()\n    return \"MyClass: \" .. tostring(self.value)\nend"
  else none

/-- The per-language snippet table for Kotlin. -/
def kotlinSnippets (topic : String) : Option String :=
  if topic = "hello" then
    some "fun main() \x7b\n    println(\"Hello, world!\")\n\x7d"
  else if topic = "function" then
    some "fun add(a: Int, b: Int): Int \x7b\n    return a + b\n\x7d"
  else if topic = "class" then
    some "class MyClass(val value: Int) \x7b\n    override fun toString(): String = \"MyClass: $value\"\n\x7d"
  else none

/-- The outer `snippets` dictionary: language to its topic table; `none`
models `snippets.get(lang, \x7b\x7d)` falling back to the empty dictionary. -/
def snippetsTable (lang : String) : Option (String → Option String) :=
  if lang = "python" then some pythonSnippets
  else if lang = "java" then some javaSnippets
  else if lang = "perl" then some perlSnippets
  else if lang = "lua" then some luaSnippets
  else if lang = "kotlin" then some kotlinSnippets
  else none

/-- The sentinel returned by `get_snippet` on a lookup miss. -/
def snippetSentinel : String := "# No snippet found for this topic/language."

/-- `get_snippet` from `codetool.py`:
`snippets.get(lang, \x7b\x7d).get(topic, "# No snippet found for this topic/language.")`. -/
def get_snippet (lang topic : String) : String :=
  match snippetsTable lang with
  | some table => (table topic).getD snippetSentinel
  | none => snippetSentinel

/-- `format_code` from `codetool.py`.  `autopep8 = none` is the
`ImportError` branch; `autopep8 = some fix` models an installed
`autopep8` whose `fix_code` is `fix`. -/
def format_code (autopep8 : Option (String → String)) (lang code : String) : String :=
  if lang = "python" then
    match autopep8 with
    | some fix => fix code
    | none => "# autopep8 not installed, returning original code.\n" ++ code
  else if lang = "java" then
    textwrap_indent "    " code
  else
    code

/-- `lint_code` from `codetool.py`.  `pyflakes = none` is the
`ImportError` branch; `pyflakes = some check` models an installed
`pyflakes` whose captured report for `code` is `check code`. -/
def lint_code (pyflakes : Option (String → String)) (lang code : String) : String :=
  if lang = "python" then
    match pyflakes with
    | some check => check code
    | none => "# pyflakes not installed, skipping lint."
  else
    "# Lint not supported for this language in this demo."

/-- `doc_link` from `codetool.py`; the `topic` parameter is accepted and
never used, exactly as in the source. -/
def doc_link (lang : String) (topic : String) : String :=
  if lang = "python" then "https://docs.python.org/3/"
  else if lang = "java" then "https://docs.oracle.com/en/java/"
  else if lang = "perl" then "https://perldoc.perl.org/"
  else if lang = "lua" then "https://www.lua.org/manual/5.4/"
  else if lang = "kotlin" then "https://kotlinlang.org/docs/home.html"
  else "# No documentation link found."

/-- `generate_template` from `codetool.py`. -/
def generate_template (lang kind : String) : String :=
  if kind = "hello" then get_snippet lang "hello"
  else if kind = "function" then get_snippet lang "function"
  else if kind = "class" then get_snippet lang "class"
  else "# Template not available."

/-- Claim C8: `list_languages()` returns exactly the sequence
`[python, java, perl, lua, kotlin]`, in that stable order, on every call
(the embedding is a pure constant, so every call agrees). -/
theorem list_languages_stable :
    list_languages = ["python", "java", "perl", "lua", "kotlin"] := rfl

/-- The list of supported topic/kind identifiers, as enumerated by the
snippet tables above. -/
def topicList : List String := ["hello", "function", "class"]

/-- Claim C1: for every supported (language, topic) pair, `get_snippet`
returns a non-empty string (a fixed literal, hence deterministic); for
any other pair of strings it returns exactly the sentinel
`# No snippet found for this topic/language.`; being a total Lean
function, it always returns normally. -/
theorem get_snippet_total (lang topic : String) :
    (lang ∈ list_languages ∧ topic ∈ topicList → get_snippet lang topic ≠ "") ∧
    (¬(lang ∈ list_languages ∧ topic ∈ topicList) →
      get_snippet lang topic = "# No snippet found for this topic/language.") := by
  constructor
  · rintro ⟨hl, ht⟩
    simp only [list_languages, topicList, List.mem_cons, List.not_mem_nil, or_false] at hl ht
    rcases hl with rfl | rfl | rfl | rfl | rfl <;> rcases ht with rfl | rfl | rfl <;> decide
  · intro h
    by_cases hl : lang ∈ list_languages
    · have ht : topic ∉ topicList := fun ht => h ⟨hl, ht⟩
      simp only [list_languages, List.mem_cons, List.not_mem_nil, or_false] at hl
      simp only [topicList, List.mem_cons, List.not_mem_nil, or_false, not_or] at ht
      obtain ⟨h1, h2, h3⟩ := ht
      rcases hl with rfl | rfl | rfl | rfl | rfl <;>
        simp [get_snippet, snippetsTable, pythonSnippets, javaSnippets, perlSnippets,
          luaSnippets, kotlinSnippets, h1, h2, h3, snippetSentinel]
    · simp only [list_languages, List.mem_cons, List.not_mem_nil, or_false, not_or] at hl
      obtain ⟨g1, g2, g3, g4, g5⟩ := hl
      simp [get_snippet, snippetsTable, g1, g2, g3, g4, g5, snippetSentinel]

/-- Witness for C1 at concrete inputs. -/
theorem get_snippet_total_witness :
    get_snippet "python" "hello" ≠ "" ∧
    get_snippet "ruby" "hello" = "# No snippet found for this topic/language." :=
  ⟨(get_snippet_total "python" "hello").1 (by decide),
   (get_snippet_total "ruby" "hello").2 (by decide)⟩

/-- Claim C2 counterexample: with `autopep8` absent, `format_code` on
Python input does NOT return its input unchanged — it prepends a notice
line. -/
theorem format_code_python_absent_changes_input :
    format_code none "python" "x = 1" ≠ "x = 1" := by decide

/-- Claim C2, amended: with `autopep8` absent, `format_code("python",
code)` returns the fixed notice `# autopep8 not installed, returning
original code.` followed by a newline and then `code` unchanged. -/
theorem format_code_python_absent (code : String) :
    format_code none "python" code =
      "# autopep8 not installed, returning original code.\n" ++ code := rfl

/-- Claim C3: for `kind` among hello, function and class,
`generate_template` is byte-identical to `get_snippet` at the same
arguments; for any other `kind` it returns exactly
`# Template not available.` -/
theorem generate_template_delegates (lang kind : String) :
    (kind ∈ topicList → generate_template lang kind = get_snippet lang kind) ∧
    (kind ∉ topicList → generate_template lang kind = "# Template not available.") := by
  constructor
  · intro hk
    simp only [topicList, List.mem_cons, List.not_mem_nil, or_false] at hk
    rcases hk with rfl | rfl | rfl <;> simp [generate_template]
  · intro hk
    simp only [topicList, List.mem_cons, List.not_mem_nil, or_false, not_or] at hk
    obtain ⟨h1, h2, h3⟩ := hk
    simp [generate_template, h1, h2, h3]

/-- Witness for C3 at concrete inputs. -/
theorem generate_template_delegates_witness :
    generate_template "kotlin" "hello" = get_snippet "kotlin" "hello" ∧
    generate_template "python" "script" = "# Template not available." :=
  ⟨(generate_template_delegates "kotlin" "hello").1 (by decide),
   (generate_template_delegates "python" "script").2 (by decide)⟩

/-- Claim C5: with `pyflakes` absent, `lint_code` on Python input
returns the fixed skipped message; for any other language (whatever the
`pyflakes` state) it returns the fixed unsupported message. -/
theorem lint_code_fallbacks :
    (∀ code, lint_code none "python" code = "# pyflakes not installed, skipping lint.") ∧
    (∀ pf lang code, lang ≠ "python" →
      lint_code pf lang code = "# Lint not supported for this language in this demo.") := by
  refine ⟨fun code => rfl, fun pf lang code h => ?_⟩
  simp [lint_code, h]

/-- Witness for C5 at concrete inputs. -/
theorem lint_code_fallbacks_witness :
    lint_code none "java" "x = 1" = "# Lint not supported for this language in this demo." :=
  lint_code_fallbacks.2 none "java" "x = 1" (by decide)

/-- The supported-languages line printed by `langs` and by the banner:
`"Supported languages: " + ", ".join(list_languages())`. -/
def langsLine : String := "Supported languages: " ++ String.intercalate ", " list_languages

/-- The help table printed by the interactive `help` command (one
triple-quoted string in the source, printed in one call). -/
def helpText : String :=
  "\nCommands:\n    snippet <lang> <topic>   - Show code snippet (topics: hello, function, class)\n    format <lang>            - Format code from stdin (end with EOF)\n    lint <lang>              - Lint code from stdin (end with EOF)\n    doc <lang>               - Show documentation link\n    template <lang> <kind>   - Generate starter template (hello, function, class)\n    langs                    - List supported languages\n    help                     - Show this help\n    exit                     - Quit\n"

/-- The message printed for an unrecognized interactive input line. -/
def unknownLine : String := "Unknown command. Type \x27help\x27."

/-- The `while True` loop of `interactive_cli` in `codetool.py`, over the
list of remaining stdin lines.  Result: the printed strings paired with
`true` when the loop ended via the `exit` command.  End of input makes
`input()` raise `EOFError` (the loop dies without printing), modelled by
`([], false)`; the well-formed `format`/`lint` commands call
`sys.stdin.read()`, which consumes every remaining line as the code
payload, after which the next `input()` likewise hits end of input. -/
def interactive_loop (fmt lint : Option (String → String)) : List String → List String × Bool
  | [] => ([], false)
  | line :: rest =>
    let cmd := pyStrip line
    if cmd = "exit" then (["Goodbye!"], true)
    else if cmd = "help" then
      let r := interactive_loop fmt lint rest
      (helpText :: r.1, r.2)
    else if pyStartsWith cmd "langs" then
      let r := interactive_loop fmt lint rest
      (langsLine :: r.1, r.2)
    else if pyStartsWith cmd "snippet " then
      let parts := pySplit cmd
      let out := if parts.length ≠ 3 then "Usage: snippet <lang> <topic>"
                 else get_snippet (parts.getD 1 "") (parts.getD 2 "")
      let r := interactive_loop fmt lint rest
      (out :: r.1, r.2)
    else if pyStartsWith cmd "template " then
      let parts := pySplit cmd
      let out := if parts.length ≠ 3 then "Usage: template <lang> <kind>"
                 else generate_template (parts.getD 1 "") (parts.getD 2 "")
      let r := interactive_loop fmt lint rest
      (out :: r.1, r.2)
    else if pyStartsWith cmd "format " then
      let parts := pySplit cmd
      if parts.length ≠ 2 then
        let r := interactive_loop fmt lint rest
        ("Usage: format <lang>" :: r.1, r.2)
      else
        (["Paste code, then Ctrl-D (EOF):",
          format_code fmt (parts.getD 1 "") (String.intercalate "\n" rest)], false)
    else if pyStartsWith cmd "lint " then
      let parts := pySplit cmd
      if parts.length ≠ 2 then
        let r := interactive_loop fmt lint rest
        ("Usage: lint <lang>" :: r.1, r.2)
      else
        (["Paste code, then Ctrl-D (EOF):",
          lint_code lint (parts.getD 1 "") (String.intercalate "\n" rest)], false)
    else if pyStartsWith cmd "doc " then
      let parts := pySplit cmd
      let out := if parts.length ≠ 2 then "Usage: doc <lang>"
                 else doc_link (parts.getD 1 "") ""
      let r := interactive_loop fmt lint rest
      (out :: r.1, r.2)
    else
      let r := interactive_loop fmt lint rest
      (unknownLine :: r.1, r.2)

/-- The banner `interactive_cli` prints before entering its loop:
`print_header` (three lines), the supported-languages line, and the
usage hint. -/
def bannerLines : List String :=
  [String.mk (List.replicate 70 '='),
   "CodeTool - Interactive Code Helper",
   String.mk (List.replicate 70 '='),
   langsLine,
   "Type \x27help\x27 for commands, \x27exit\x27 to quit."]

/-- `interactive_cli` from `codetool.py`: banner then loop. -/
def interactive_cli (fmt lint : Option (String → String)) (stdinLines : List String) :
    List String × Bool :=
  (bannerLines ++ (interactive_loop fmt lint stdinLines).1,
   (interactive_loop fmt lint stdinLines).2)

namespace Codetool

/-- The function `main` from `codetool.py`.  `argv` is the full
`sys.argv` (program name first); `stdin` is the raw standard-input
text, consumed whole by the one-shot `format`/`lint` verbs and line by
line by the interactive mode.  Result: printed strings and process exit
status (0 unless `sys.exit(1)` runs, or the interactive loop dies on
`EOFError`). -/
def main (fmt lint : Option (String → String)) (argv : List String) (stdin : String) :
    List String × Nat :=
  if argv.length = 1 then
    let r := interactive_cli fmt lint (stdin.splitOn "\n")
    (r.1, if r.2 then 0 else 1)
  else if 2 ≤ argv.length then
    if argv.getD 1 "" = "snippet" then
      if argv.length ≠ 4 then (["Usage: snippet <lang> <topic>"], 1)
      else ([get_snippet (argv.getD 2 "") (argv.getD 3 "")], 0)
    else if argv.getD 1 "" = "template" then
      if argv.length ≠ 4 then (["Usage: template <lang> <kind>"], 1)
      else ([generate_template (argv.getD 2 "") (argv.getD 3 "")], 0)
    else if argv.getD 1 "" = "format" then
      if argv.length ≠ 3 then (["Usage: format <lang>"], 1)
      else (["Paste code, then Ctrl-D (EOF):", format_code fmt (argv.getD 2 "") stdin], 0)
    else if argv.getD 1 "" = "lint" then
      if argv.length ≠ 3 then (["Usage: lint <lang>"], 1)
      else (["Paste code, then Ctrl-D (EOF):", lint_code lint (argv.getD 2 "") stdin], 0)
    else if argv.getD 1 "" = "doc" then
      if argv.length ≠ 3 then (["Usage: doc <lang>"], 1)
      else ([doc_link (argv.getD 2 "") ""], 0)
    else if argv.getD 1 "" = "langs" then ([langsLine], 0)
    else (["Unknown command. Try running with no arguments for interactive mode."], 0)
  else ([], 0)
end Codetool

/-- A non-`exit` input line either leaves the loop's termination flag to
the rest of the input, or kills the loop (`format`/`lint` payload paths
and end of input): it never sets the flag itself. -/
lemma interactive_loop_snd_of_ne_exit (fmt lint : Option (String → String))
    (line : String) (rest : List String) (hx : pyStrip line ≠ "exit") :
    (interactive_loop fmt lint (line :: rest)).2 = (interactive_loop fmt lint rest).2 ∨
    (interactive_loop fmt lint (line :: rest)).2 = false := by
  simp only [interactive_loop]
  rw [if_neg hx]
  split_ifs <;> simp

/-- Claim C6: in one-shot mode, `snippet python hello` prints
`print("Hello, world!")` and exits 0, while a bare `snippet` argument
prints the usage message and exits with the non-zero status 1. -/
theorem main_oneshot_snippet :
    (∀ fmt lint prog stdin,
        Codetool.main fmt lint [prog, "snippet", "python", "hello"] stdin =
          (["print(\"Hello, world!\")"], 0)) ∧
    (∀ fmt lint prog stdin,
        Codetool.main fmt lint [prog, "snippet"] stdin =
          (["Usage: snippet <lang> <topic>"], 1) ∧
        (Codetool.main fmt lint [prog, "snippet"] stdin).2 ≠ 0) :=
  ⟨fun _ _ _ _ => rfl, fun _ _ _ _ => ⟨rfl, Nat.one_ne_zero⟩⟩

/-- Claim C7: the interactive loop terminates with `Goodbye!` exactly on
an input line stripping to `exit`; an unrecognized line prints the
generic error and the loop continues; the session `doc lua` then `exit`
prints the Lua manual URL, then `Goodbye!`, and terminates; and whenever
the loop terminates normally, some input line stripped to `exit`. -/
theorem interactive_loop_termination :
    (∀ fmt lint line rest, pyStrip line = "exit" →
        interactive_loop fmt lint (line :: rest) = (["Goodbye!"], true)) ∧
    (∀ fmt lint line rest,
        pyStrip line ≠ "exit" → pyStrip line ≠ "help" →
        pyStartsWith (pyStrip line) "langs" = false →
        pyStartsWith (pyStrip line) "snippet " = false →
        pyStartsWith (pyStrip line) "template " = false →
        pyStartsWith (pyStrip line) "format " = false →
        pyStartsWith (pyStrip line) "lint " = false →
        pyStartsWith (pyStrip line) "doc " = false →
        interactive_loop fmt lint (line :: rest) =
          (unknownLine :: (interactive_loop fmt lint rest).1,
           (interactive_loop fmt lint rest).2)) ∧
    (∀ fmt lint,
        interactive_loop fmt lint ["doc lua", "exit"] =
          (["https://www.lua.org/manual/5.4/", "Goodbye!"], true)) ∧
    (∀ fmt lint lines, (interactive_loop fmt lint lines).2 = true →
        ∃ line ∈ lines, pyStrip line = "exit") := by
  refine ⟨?_, ?_, ?_, ?_⟩
  · intro fmt lint line rest h
    simp [interactive_loop, h]
  · intro fmt lint line rest h1 h2 h3 h4 h5 h6 h7 h8
    simp [interactive_loop, h1, h2, h3, h4, h5, h6, h7, h8]
  · intro fmt lint
    rfl
  · intro fmt lint lines
    induction lines with
    | nil => intro h; simp [interactive_loop] at h
    | cons line rest ih =>
      intro h
      by_cases hx : pyStrip line = "exit"
      · exact ⟨line, List.mem_cons_self line rest, hx⟩
      · rcases interactive_loop_snd_of_ne_exit fmt lint line rest hx with heq | heq
        · obtain ⟨l, hl, hs⟩ := ih (heq ▸ h)
          exact ⟨l, List.mem_cons_of_mem line hl, hs⟩
        · rw [heq] at h
          exact absurd h (by simp)

/-- Witness for C7 at concrete inputs. -/
theorem interactive_loop_termination_witness :
    interactive_loop none none ["exit"] = (["Goodbye!"], true) ∧
    interactive_loop none none ["hello?"] = ([unknownLine], false) :=
  ⟨interactive_loop_termination.1 none none "exit" [] (by decide),
   (interactive_loop_termination.2.1 none none "hello?" [] (by decide) (by decide)
      (by decide) (by decide) (by decide) (by decide) (by decide) (by decide)).trans
     (by decide)⟩

/-- Claim C9: `doc_link` ignores its `topic` argument, and both the
interactive `doc` command and the one-shot `doc` verb call it with the
empty string as topic. -/
theorem doc_link_topic_independent :
    (∀ lang t1 t2, doc_link lang t1 = doc_link lang t2) ∧
    (∀ fmt lint prog lang stdin,
        Codetool.main fmt lint [prog, "doc", lang] stdin = ([doc_link lang ""], 0)) ∧
    (∀ fmt lint line rest,
        pyStrip line ≠ "exit" → pyStrip line ≠ "help" →
        pyStartsWith (pyStrip line) "langs" = false →
        pyStartsWith (pyStrip line) "snippet " = false →
        pyStartsWith (pyStrip line) "template " = false →
        pyStartsWith (pyStrip line) "format " = false →
        pyStartsWith (pyStrip line) "lint " = false →
        pyStartsWith (pyStrip line) "doc " = true →
        (pySplit (pyStrip line)).length = 2 →
        interactive_loop fmt lint (line :: rest) =
          (doc_link ((pySplit (pyStrip line)).getD 1 "") "" ::
             (interactive_loop fmt lint rest).1,
           (interactive_loop fmt lint rest).2)) := by
  refine ⟨fun lang t1 t2 => rfl, fun fmt lint prog lang stdin => rfl, ?_⟩
  intro fmt lint line rest h1 h2 h3 h4 h5 h6 h7 h8 h9
  simp [interactive_loop, h1, h2, h3, h4, h5, h6, h7, h8, h9]

/-- Witness for C9 at the concrete session line `doc lua`. -/
theorem doc_link_topic_independent_witness :
    interactive_loop none none ["doc lua"] = (["https://www.lua.org/manual/5.4/"], false) :=
  (doc_link_topic_independent.2.2 none none "doc lua" [] (by decide) (by decide)
      (by decide) (by decide) (by decide) (by decide) (by decide) (by decide)
      (by decide)).trans (by decide)

/-- Claim C10: the interactive dispatcher recognizes commands by string
comparison on the stripped line — `langs` by bare prefix (so `langsxyz`
also lists the languages), the argument-taking verbs by a prefix ending
in a space (so the bare lines `snippet`, `template`, `format`, `lint`,
`doc` fall through to the generic unknown-command message, not to their
usage messages). -/
theorem dispatcher_matches_prefixes :
    (∀ fmt lint line rest,
        pyStrip line ≠ "exit" → pyStrip line ≠ "help" →
        pyStartsWith (pyStrip line) "langs" = true →
        interactive_loop fmt lint (line :: rest) =
          (langsLine :: (interactive_loop fmt lint rest).1,
           (interactive_loop fmt lint rest).2)) ∧
    (∀ fmt lint rest,
        interactive_loop fmt lint ("langsxyz" :: rest) =
          (langsLine :: (interactive_loop fmt lint rest).1,
           (interactive_loop fmt lint rest).2)) ∧
    (∀ verb, verb ∈ ["snippet", "template", "format", "lint", "doc"] →
        ∀ fmt lint rest,
          interactive_loop fmt lint (verb :: rest) =
            (unknownLine :: (interactive_loop fmt lint rest).1,
             (interactive_loop fmt lint rest).2)) := by
  refine ⟨?_, fun fmt lint rest => rfl, ?_⟩
  · intro fmt lint line rest h1 h2 h3
    simp [interactive_loop, h1, h2, h3]
  · intro verb hv fmt lint rest
    simp only [List.mem_cons, List.not_mem_nil, or_false] at hv
    rcases hv with rfl | rfl | rfl | rfl | rfl <;> rfl

/-- Witness for C10 at the concrete lines `langsxyz` and `snippet`. -/
theorem dispatcher_matches_prefixes_witness :
    interactive_loop none none ["langsxyz"] = ([langsLine], false) ∧
    interactive_loop none none ["snippet"] = ([unknownLine], false) :=
  ⟨(dispatcher_matches_prefixes.1 none none "langsxyz" [] (by decide) (by decide)
      (by decide)).trans (by decide),
   (dispatcher_matches_prefixes.2.2 "snippet" (by decide) none none []).trans (by decide)⟩

lemma splitLines_nil : splitLines [] = [] := rfl

lemma splitLines_cons (c : Char) (cs : List Char) :
    splitLines (c :: cs) = splitLinesStep c (splitLines cs) := rfl

/-- The transform asserted by claim C4 for Java input, written from the
claim's words for comparison: EVERY line of the input prefixed by the
four-space indent unit. -/
def indentEveryLine (text : String) : String :=
  String.join ((splitLines text.data).map (fun l => "    " ++ String.mk l))

/-- Claim C4 counterexample: on the one-line input `"\n"` (a single
blank line), `format_code` for Java returns the line unprefixed, so it
is not the every-line-prefixed transform. -/
theorem format_code_java_skips_blank_lines :
    format_code none "java" "\n" ≠ indentEveryLine "\n" := by decide

/-- A character list is line-break-free when it contains no line
boundary character: neither `'\r'` nor any single-character boundary. -/
def NLfree (l : List Char) : Prop := ∀ c ∈ l, c ≠ '\r' ∧ isLineBoundary c = false

/-- First character of the first line of a line list, if any. -/
def headChar (ls : List (List Char)) : Option Char := ls.head?.bind List.head?

/-- A line-boundary character is never the carriage return. -/
lemma boundary_ne_r {b : Char} (hb : isLineBoundary b = true) : b ≠ '\r' := by
  intro h
  subst h
  exact absurd hb (by decide)

/-- The first character of the first split line is the first character
of the text. -/
lemma headChar_splitLines (cs : List Char) : headChar (splitLines cs) = cs.head? := by
  cases cs with
  | nil => rfl
  | cons c cs =>
    rw [splitLines_cons]
    unfold headChar splitLinesStep
    split_ifs with h1 h2 h3
    · subst h1; simp
    · subst h1; simp
    · simp
    · cases hs : splitLines cs with
      | nil => simp
      | cons l ls => simp

/-- Splitting after a line-break-free block followed by a
single-character line boundary. -/
lemma splitLines_append_b (body : List Char) (b : Char) (cs : List Char) (h : NLfree body)
    (hb : isLineBoundary b = true) :
    splitLines (body ++ b :: cs) = (body ++ [b]) :: splitLines cs := by
  induction body with
  | nil => simp [splitLines_cons, splitLinesStep, boundary_ne_r hb, hb]
  | cons c body ih =>
    obtain ⟨hc1, hc2⟩ := h c (List.mem_cons_self c body)
    have h' : NLfree body := fun x hx => h x (List.mem_cons_of_mem c hx)
    rw [List.cons_append, splitLines_cons, ih h']
    simp [splitLinesStep, hc1, hc2]

/-- Splitting after a line-break-free block followed by `"\r\n"`. -/
lemma splitLines_append_rn (body : List Char) (cs : List Char) (h : NLfree body) :
    splitLines (body ++ '\r' :: '\n' :: cs) = (body ++ ['\r', '\n']) :: splitLines cs := by
  induction body with
  | nil => simp [splitLines_cons, splitLinesStep, isLineBoundary]
  | cons c body ih =>
    obtain ⟨hc1, hc2⟩ := h c (List.mem_cons_self c body)
    have h' : NLfree body := fun x hx => h x (List.mem_cons_of_mem c hx)
    rw [List.cons_append, splitLines_cons, ih h']
    simp [splitLinesStep, hc1, hc2]

/-- Splitting after a line-break-free block followed by a `'\r'` that is
not part of a `"\r\n"` boundary. -/
lemma splitLines_append_r (body : List Char) (cs : List Char) (h : NLfree body)
    (hcs : cs.head? ≠ some '\n') :
    splitLines (body ++ '\r' :: cs) = (body ++ ['\r']) :: splitLines cs := by
  induction body with
  | nil =>
    have hh : (splitLines cs).head? ≠ some ['\n'] := by
      intro hq
      have hc := headChar_splitLines cs
      unfold headChar at hc
      rw [hq] at hc
      exact hcs (by simpa using hc.symm)
    rw [List.nil_append, splitLines_cons]
    simp [splitLinesStep, hh]
  | cons c body ih =>
    obtain ⟨hc1, hc2⟩ := h c (List.mem_cons_self c body)
    have h' : NLfree body := fun x hx => h x (List.mem_cons_of_mem c hx)
    rw [List.cons_append, splitLines_cons, ih h']
    simp [splitLinesStep, hc1, hc2]

/-- A non-empty line-break-free block is a single terminator-less line. -/
lemma splitLines_nlfree (body : List Char) (h : NLfree body) (hne : body ≠ []) :
    splitLines body = [body] := by
  induction body with
  | nil => exact absurd rfl hne
  | cons c body ih =>
    obtain ⟨hc1, hc2⟩ := h c (List.mem_cons_self c body)
    have h' : NLfree body := fun x hx => h x (List.mem_cons_of_mem c hx)
    by_cases hb : body = []
    · subst hb; simp [splitLines_cons, splitLines_nil, splitLinesStep, hc1, hc2]
    · rw [splitLines_cons, ih h' hb]
      simp [splitLinesStep, hc1, hc2]

/-- The shape of the line lists `splitLines` produces: every line but
the last carries its terminator (a single-character boundary, `"\r\n"`,
or a `"\r"` not immediately followed by a line starting with `'\n'`),
and a terminator-less last line is non-empty and line-break-free. -/
inductive WFLines : List (List Char) → Prop
  | nil : WFLines []
  | last (body : List Char) : NLfree body → body ≠ [] → WFLines [body]
  | consB (body : List Char) (b : Char) (rest : List (List Char)) :
      NLfree body → isLineBoundary b = true → WFLines rest →
      WFLines ((body ++ [b]) :: rest)
  | consRN (body : List Char) (rest : List (List Char)) :
      NLfree body → WFLines rest → WFLines ((body ++ ['\r', '\n']) :: rest)
  | consR (body : List Char) (rest : List (List Char)) :
      NLfree body → WFLines rest → headChar rest ≠ some '\n' →
      WFLines ((body ++ ['\r']) :: rest)

/-- The first character of the join of a well-formed line list is the
first character of its first line. -/
lemma headChar_flatten {ls : List (List Char)} (h : WFLines ls) :
    ls.flatten.head? = headChar ls := by
  cases h with
  | nil => rfl
  | last body h1 h2 => simp [headChar]
  | consB body b rest h1 hb h2 => cases body <;> simp [headChar]
  | consRN body rest h1 h2 => cases body <;> simp [headChar]
  | consR body rest h1 h2 h3 => cases body <;> simp [headChar]

/-- Splitting the join of a well-formed line list recovers the list. -/
lemma splitLines_flatten {ls : List (List Char)} (h : WFLines ls) :
    splitLines ls.flatten = ls := by
  induction h with
  | nil => rfl
  | last body h1 h2 =>
    rw [List.flatten_cons, List.flatten_nil, List.append_nil, splitLines_nlfree body h1 h2]
  | consB body b rest h1 hb h2 ih =>
    rw [List.flatten_cons, List.append_assoc, List.singleton_append,
      splitLines_append_b body b _ h1 hb, ih]
  | consRN body rest h1 h2 ih =>
    rw [List.flatten_cons, List.append_assoc, List.cons_append, List.singleton_append,
      splitLines_append_rn body _ h1, ih]
  | consR body rest h1 h2 h3 ih =>
    rw [List.flatten_cons, List.append_assoc, List.singleton_append,
      splitLines_append_r body _ h1 (by rw [headChar_flatten h2]; exact h3), ih]

/-- The tail of a well-formed line list is well-formed. -/
lemma WFLines_tail {l : List Char} {ls : List (List Char)} (h : WFLines (l :: ls)) :
    WFLines ls := by
  cases h with
  | last => exact WFLines.nil
  | consB body b rest h1 hb h2 => exact h2
  | consRN body rest h1 h2 => exact h2
  | consR body rest h1 h2 h3 => exact h2

/-- In a well-formed line list, a first line starting with `'\n'` is
exactly the lone-newline line. -/
lemma WFLines_head_nl {l : List Char} {ls : List (List Char)} (h : WFLines (l :: ls))
    (hl : l.head? = some '\n') : l = ['\n'] := by
  cases h with
  | last =>
    rename_i h1 h2
    cases l with
    | nil => simp at hl
    | cons b bs =>
      exact absurd ((h1 b (List.mem_cons_self b bs)).2)
        (by have hb : b = '\n' := by simpa using hl
            subst hb; decide)
  | consB body b rest h1 hb h2 =>
    cases body with
    | nil =>
      have hb2 : b = '\n' := by simpa using hl
      rw [hb2]
      rfl
    | cons x xs =>
      exact absurd ((h1 x (List.mem_cons_self x xs)).2)
        (by have hx : x = '\n' := by simpa using hl
            subst hx; decide)
  | consRN body rest h1 h2 =>
    cases body with
    | nil => simp at hl
    | cons x xs =>
      exact absurd ((h1 x (List.mem_cons_self x xs)).2)
        (by have hx : x = '\n' := by simpa using hl
            subst hx; decide)
  | consR body rest h1 h2 h3 =>
    cases body with
    | nil => simp at hl
    | cons x xs =>
      exact absurd ((h1 x (List.mem_cons_self x xs)).2)
        (by have hx : x = '\n' := by simpa using hl
            subst hx; decide)

/-- Prepending an ordinary character to the first line preserves
well-formedness. -/
lemma WFLines_cons_char {l : List Char} {ls : List (List Char)} (c : Char)
    (h : WFLines (l :: ls)) (hc1 : c ≠ '\r') (hc2 : isLineBoundary c = false) :
    WFLines ((c :: l) :: ls) := by
  have hfree : ∀ body : List Char, NLfree body → NLfree (c :: body) := by
    intro body hb x hx
    rcases List.mem_cons.mp hx with rfl | hx
    · exact ⟨hc1, hc2⟩
    · exact hb x hx
  cases h with
  | last =>
    rename_i h1 h2
    exact WFLines.last (c :: l) (hfree l h1) (List.cons_ne_nil c l)
  | consB body b rest h1 hb h2 => exact WFLines.consB (c :: body) b ls (hfree body h1) hb h2
  | consRN body rest h1 h2 => exact WFLines.consRN (c :: body) ls (hfree body h1) h2
  | consR body rest h1 h2 h3 => exact WFLines.consR (c :: body) ls (hfree body h1) h2 h3

/-- `splitLines` only produces well-formed line lists. -/
lemma WFLines_splitLines (cs : List Char) : WFLines (splitLines cs) := by
  induction cs with
  | nil => exact WFLines.nil
  | cons c cs ih =>
    rw [splitLines_cons]
    unfold splitLinesStep
    split_ifs with h1 h2 h3
    · subst h1
      rcases hs : splitLines cs with _ | ⟨l, ls⟩
      · rw [hs] at h2; simp at h2
      · rw [hs] at h2 ih
        have hl : l = ['\n'] := by simpa using h2
        subst hl
        exact WFLines.consRN [] ls (by intro x hx; simp at hx) (WFLines_tail ih)
    · subst h1
      refine WFLines.consR [] (splitLines cs) (by intro x hx; simp at hx) ih ?_
      intro hq
      rcases hs : splitLines cs with _ | ⟨l, ls⟩
      · rw [hs] at hq; simp [headChar] at hq
      · rw [hs] at hq ih h2
        have : l = ['\n'] := WFLines_head_nl ih (by simpa [headChar] using hq)
        exact h2 (by rw [this]; rfl)
    · exact WFLines.consB [] c (splitLines cs) (by intro x hx; simp at hx) h3 ih
    · rcases hs : splitLines cs with _ | ⟨l, ls⟩
      · refine WFLines.last [c] ?_ (by simp)
        intro x hx
        simp at hx
        subst hx
        exact ⟨h1, by simpa using h3⟩
      · rw [hs] at ih
        exact WFLines_cons_char c ih h1 (by simpa using h3)

/-- The per-line action of `format_code` for Java, on character lists:
prefix the four-space indent unit unless the line is whitespace-only. -/
def indentLine (l : List Char) : List Char :=
  if stripChars l = [] then l else "    ".data ++ l

lemma indentLine_of_blank {l : List Char} (h : stripChars l = []) : indentLine l = l :=
  if_pos h

lemma indentLine_of_nonblank {l : List Char} (h : stripChars l ≠ []) :
    indentLine l = "    ".data ++ l := if_neg h

/-- Concatenation preserves freedom from line-break characters. -/
lemma NLfree_append {a b : List Char} (ha : NLfree a) (hb : NLfree b) : NLfree (a ++ b) := by
  intro c hc
  rcases List.mem_append.mp hc with h | h
  · exact ha c h
  · exact hb c h

/-- The four-space indent unit contains no line-break characters. -/
lemma NLfree_sp : NLfree "    ".data := by unfold NLfree; decide

/-- Indenting lines never creates a line starting with `'\n'`. -/
lemma headChar_map_indentLine {rest : List (List Char)} (h : headChar rest ≠ some '\n') :
    headChar (rest.map indentLine) ≠ some '\n' := by
  cases rest with
  | nil => exact h
  | cons r rs =>
    by_cases hc : stripChars r = []
    · simpa [headChar, indentLine_of_blank hc] using h
    · simp [headChar, indentLine_of_nonblank hc]

/-- `indentLine` preserves the well-formed shape of a line list. -/
lemma WFLines_map_indentLine {ls : List (List Char)} (h : WFLines ls) :
    WFLines (ls.map indentLine) := by
  induction h with
  | nil => exact WFLines.nil
  | last =>
    rename_i body h1 h2
    rw [List.map_cons, List.map_nil]
    by_cases hc : stripChars body = []
    · rw [indentLine_of_blank hc]
      exact WFLines.last body h1 h2
    · rw [indentLine_of_nonblank hc]
      exact WFLines.last _ (NLfree_append NLfree_sp h1) (by simp)
  | consB body b rest h1 hb h2 ih =>
    rw [List.map_cons]
    by_cases hc : stripChars (body ++ [b]) = []
    · rw [indentLine_of_blank hc]
      exact WFLines.consB body b _ h1 hb ih
    · rw [indentLine_of_nonblank hc, ← List.append_assoc]
      exact WFLines.consB _ b _ (NLfree_append NLfree_sp h1) hb ih
  | consRN body rest h1 h2 ih =>
    rw [List.map_cons]
    by_cases hc : stripChars (body ++ ['\r', '\n']) = []
    · rw [indentLine_of_blank hc]
      exact WFLines.consRN body _ h1 ih
    · rw [indentLine_of_nonblank hc, ← List.append_assoc]
      exact WFLines.consRN _ _ (NLfree_append NLfree_sp h1) ih
  | consR body rest h1 h2 h3 ih =>
    rw [List.map_cons]
    by_cases hc : stripChars (body ++ ['\r']) = []
    · rw [indentLine_of_blank hc]
      exact WFLines.consR body _ h1 ih (headChar_map_indentLine h3)
    · rw [indentLine_of_nonblank hc, ← List.append_assoc]
      exact WFLines.consR _ _ (NLfree_append NLfree_sp h1) ih (headChar_map_indentLine h3)

lemma data_foldl_append (L : List String) (s : String) :
    (L.foldl (fun r t => r ++ t) s).data = s.data ++ (L.map String.data).flatten := by
  induction L generalizing s with
  | nil => simp
  | cons a L ih => simp [List.foldl_cons, ih, String.data_append]

/-- The characters of a joined string list are the concatenation of the
characters of its members. -/
lemma data_join (L : List String) : (String.join L).data = (L.map String.data).flatten := by
  have h : String.join L = L.foldl (fun r t => r ++ t) "" := rfl
  rw [h, data_foldl_append]
  rfl

/-- The characters of `textwrap_indent "    "` are the joined indented
lines of the input. -/
lemma data_textwrap_indent (code : String) :
    (textwrap_indent "    " code).data = ((splitLines code.data).map indentLine).flatten := by
  unfold textwrap_indent
  rw [data_join, List.map_map]
  have h : (String.data ∘ fun l =>
      if stripChars l = [] then String.mk l else "    " ++ String.mk l) = indentLine := by
    funext l
    by_cases hc : stripChars l = []
    · simp [hc, indentLine_of_blank hc]
    · simp [hc, indentLine_of_nonblank hc, String.data_append]
  rw [h]

/-- Claim C4, amended: `format_code` for Java prefixes the four-space
indent unit to exactly those lines that contain a non-whitespace
character, leaving whitespace-only lines unchanged (first conjunct at
the text level, second at the line level); and for every language other
than `python` and `java` it returns the input unchanged. -/
theorem format_code_java_amended :
    (∀ autopep8 code, format_code autopep8 "java" code =
        String.join ((splitLines code.data).map
          (fun l => if stripChars l = [] then String.mk l else "    " ++ String.mk l))) ∧
    (∀ autopep8 code, splitLines ((format_code autopep8 "java" code).data) =
        (splitLines code.data).map indentLine) ∧
    (∀ autopep8 lang code, lang ≠ "python" → lang ≠ "java" →
        format_code autopep8 lang code = code) := by
  refine ⟨fun ap code => rfl, fun ap code => ?_, fun ap lang code h1 h2 => ?_⟩
  · have h : format_code ap "java" code = textwrap_indent "    " code := rfl
    rw [h, data_textwrap_indent]
    exact splitLines_flatten (WFLines_map_indentLine (WFLines_splitLines code.data))
  · simp [format_code, h1, h2]

/-- Witness for the amended C4 at a concrete non-python, non-java
language. -/
theorem format_code_java_amended_witness :
    format_code none "lua" "x = 1" = "x = 1" :=
  format_code_java_amended.2.2 none "lua" "x = 1" (by decide) (by decide)
